import Mathlib

/-!
Shallow embedding of the ATEPC training / inference core of PyABSA
(`pyabsa/tasks/atepc/...` and `pyabsa/tasks/apc/dataset_utils/...`),
together with theorems settling the specification claims about it.

Python lists become Lean `List`s, numpy row operations become list
operations, exceptions become `Except`, and the endless retry loop of
`train4atepc` is fuel-indexed.  Metric values (floats in the source) are
modelled as rationals: only their ordering matters to the claims.
-/

namespace PyAbsa

/-! ### Basic string helpers

`any(nd in n for nd in no_decay)` and `'ASP' in l` are substring tests on
Python strings; we model them on the underlying character lists. -/

/-- `charsStartWith p s` is true when `p` is an initial segment of `s`. -/
def charsStartWith : List Char → List Char → Bool
  | [], _ => true
  | _ :: _, [] => false
  | p :: ps, c :: cs => p = c && charsStartWith ps cs

/-- `charsContain p s` is true when `p` occurs contiguously inside `s`. -/
def charsContain (p : List Char) : List Char → Bool
  | [] => charsStartWith p []
  | c :: cs => charsStartWith p (c :: cs) || charsContain p cs

/-- Python's `pat in s` on strings (substring containment). -/
def strIn (pat s : String) : Bool := charsContain pat.data s.data

/-! ### `get_ids_for_local_context_extractor` /
`get_batch_token_labels_bert_base_indices`
(`lcf_atepc_large.py` lines 38–54, identically in `bert_base_atepc.py`).

Each batch row is processed by `sep_index = np.argmax(row == v)` followed
by `row[sep_index + 1:] = 0`.  `np.argmax` over a boolean row returns the
index of the first `True`, and `0` when every entry is `False`. -/

/-- `np.argmax (xs == v)`: index of the first occurrence of `v`, and `0`
when `v` does not occur. -/
def npArgmaxEq (v : Int) (xs : List Int) : Nat :=
  match xs.findIdx? (· = v) with
  | some i => i
  | none => 0

/-- One row of `get_ids_for_local_context_extractor` /
`get_batch_token_labels_bert_base_indices`: zero every entry strictly after
the first occurrence of `sepVal` (after index 0 when `sepVal` is absent). -/
def zeroAfterSep (sepVal : Int) (row : List Int) : List Int :=
  let sep_index := npArgmaxEq sepVal row
  row.take (sep_index + 1) ++ List.replicate (row.length - (sep_index + 1)) 0

/-- `LCF_ATEPC_LARGE.get_ids_for_local_context_extractor` on a batch of
token-id rows; the separator token id is 102. -/
def get_ids_for_local_context_extractor (batch : List (List Int)) : List (List Int) :=
  batch.map (zeroAfterSep 102)

/-- `LCF_ATEPC_LARGE.get_batch_token_labels_bert_base_indices` on a batch of
label rows; the separator tag id is 5. -/
def get_batch_token_labels_bert_base_indices (batch : List (List Int)) : List (List Int) :=
  batch.map (zeroAfterSep 5)

/-! ### Instructor construction and the `train4atepc` retry loop
(`atepc_trainer.py` lines 45–47 and 373–382). -/

/-- The exceptions relevant to Instructor construction. -/
inductive PyErr where
  | valueError : PyErr
  | connectionError : PyErr
  deriving DecidableEq, Repr

/-- `Instructor.__init__` reduced to its failure behaviour: a
`gradient_accumulation_steps < 1` raises `ValueError`
(`atepc_trainer.py` lines 45–47); afterwards fetching the pretrained
encoder may raise a `ConnectionError` (modelled by the `fetchOk` flag for
the current attempt). -/
def instructorInit (gradient_accumulation_steps : Int) (fetchOk : Bool) :
    Except PyErr Unit :=
  if gradient_accumulation_steps < 1 then .error .valueError
  else if fetchOk then .ok () else .error .connectionError

/-- `train4atepc`'s construction loop (`atepc_trainer.py` lines 373–382):
`while not trainer: try: trainer = Instructor(opt) except ValueError: sleep(60)`.
`k` is the attempt index, `fuel` bounds how many attempts we observe;
`.ok (some ())` means the Instructor was built, `.ok none` means the loop
is still retrying when the fuel runs out, `.error e` is an uncaught
exception. Only `ValueError` is caught; every other exception propagates. -/
def train4atepcLoop (gradient_accumulation_steps : Int) (fetchOk : Nat → Bool) :
    Nat → Nat → Except PyErr (Option Unit)
  | _, 0 => .ok none
  | k, fuel + 1 =>
    match instructorInit gradient_accumulation_steps (fetchOk k) with
    | .ok u => .ok (some u)
    | .error .valueError => train4atepcLoop gradient_accumulation_steps fetchOk (k + 1) fuel
    | .error e => .error e

/-! ### Per-batch training-step bookkeeping
(`atepc_trainer.py` lines 149–176). -/

/-- The counters mutated by one training-batch iteration. -/
structure TrainCounters where
  sum_loss : ℚ
  nb_tr_examples : Nat
  nb_tr_steps : Nat
  global_step : Nat
  deriving DecidableEq, Repr

/-- One pass of the inner batch loop body (`atepc_trainer.py` lines
152–175): accumulate the loss, count the examples and the step, and run
`global_step += 1` twice (lines 174 and 175, as written). -/
def processBatch (st : TrainCounters) (batchLoss : ℚ) (batchSize : Nat) : TrainCounters :=
  { sum_loss := st.sum_loss + batchLoss
    nb_tr_examples := st.nb_tr_examples + batchSize
    nb_tr_steps := st.nb_tr_steps + 1
    global_step := st.global_step + 1 + 1 }

/-! ### Sampler choice for the three data loaders
(`atepc_trainer.py` lines 90–91 and 110–111; `aspect_extractor.py`
lines 176–177 and 267–268). -/

/-- The two sampler classes used by the repository's `DataLoader`s. -/
inductive SamplerKind where
  | sequential : SamplerKind
  | randomOrder : SamplerKind
  deriving DecidableEq, Repr

/-- `train_sampler = SequentialSampler(train_data)` (`atepc_trainer.py` line 90). -/
def atepcTrainSampler : SamplerKind := .sequential

/-- `eval_sampler = RandomSampler(eval_data)` (`atepc_trainer.py` line 110). -/
def atepcEvalSampler : SamplerKind := .randomOrder

/-- `eval_sampler = SequentialSampler(eval_data)` in `AspectExtractor._extract`
(`aspect_extractor.py` line 176). -/
def extractSamplerKind : SamplerKind := .sequential

/-- `eval_sampler = SequentialSampler(eval_data)` in `AspectExtractor._infer`
(`aspect_extractor.py` line 267). -/
def inferSamplerKind : SamplerKind := .sequential

/-- The order in which a loader over `n` items visits indices: a
sequential sampler always yields `0, 1, …, n-1`; a random-order sampler
yields whatever permutation `draw` the RNG produced for this pass. -/
def loaderVisitOrder (s : SamplerKind) (n : Nat) (draw : List Nat) : List Nat :=
  match s with
  | .sequential => List.range n
  | .randomOrder => draw

/-! ### Optimizer parameter groups
(`atepc_trainer.py` lines 117–127; identically `aspect_extractor.py`
lines 98–105). -/

/-- `no_decay = ['bias', 'LayerNorm.bias', 'LayerNorm.weight']`. -/
def no_decay : List String := ["bias", "LayerNorm.bias", "LayerNorm.weight"]

/-- `any(nd in n for nd in no_decay)`. -/
def isNoDecayName (n : String) : Bool := no_decay.any (fun nd => strIn nd n)

/-- One optimizer parameter group: the names it holds and the weight
decay attached to it. -/
structure ParamGroup where
  params : List String
  weight_decay : ℚ
  deriving DecidableEq, Repr, Inhabited

/-- `optimizer_grouped_parameters` (`atepc_trainer.py` lines 119–124):
the parameters whose names match no entry of `no_decay`, with decay
`l2reg`, then the parameters whose names match some entry of `no_decay` —
also with decay `l2reg`, exactly as the source writes it. -/
def optimizer_grouped_parameters (paramNames : List String) (l2reg : ℚ) :
    List ParamGroup :=
  [ { params := paramNames.filter (fun n => !(isNoDecayName n)), weight_decay := l2reg },
    { params := paramNames.filter (fun n => isNoDecayName n), weight_decay := l2reg } ]

/-- The weight decay that the grouping assigns to a single named
parameter: the decay of the group that contains it. -/
def decayAssignedTo (name : String) (l2reg : ℚ) : ℚ :=
  if isNoDecayName name then
    (optimizer_grouped_parameters [name] l2reg).getLast!.weight_decay
  else
    (optimizer_grouped_parameters [name] l2reg).head!.weight_decay

/-! ### Evaluation events and the checkpoint policy
(`atepc_trainer.py` lines 145–146 and 192–211).

Metric values (Python floats) are modelled as rationals; only their
ordering matters here. -/

/-- The three current metrics produced by one call of
`Instructor.evaluate`: `apc_result['apc_test_acc']`,
`apc_result['apc_test_f1']` and `ate_result`. -/
structure EvalMetrics where
  apc_acc : ℚ
  apc_f1 : ℚ
  ate_f1 : ℚ
  deriving DecidableEq, Repr

/-- `self.opt.max_test_metrics`, the three running maxima. -/
structure MaxMetrics where
  max_apc_test_acc : ℚ
  max_apc_test_f1 : ℚ
  max_ate_test_f1 : ℚ
  deriving DecidableEq, Repr

/-- `{'max_apc_test_acc': 0, 'max_apc_test_f1': 0, 'max_ate_test_f1': 0}`
(`atepc_trainer.py` line 145). -/
def initMaxMetrics : MaxMetrics := ⟨0, 0, 0⟩

/-- The `or`-condition of `atepc_trainer.py` lines 201–203 that guards
`self._save_model`. -/
def strictlyImproves (m : MaxMetrics) (c : EvalMetrics) : Prop :=
  c.apc_acc > m.max_apc_test_acc ∨ c.apc_f1 > m.max_apc_test_f1 ∨
    c.ate_f1 > m.max_ate_test_f1

instance (m : MaxMetrics) (c : EvalMetrics) : Decidable (strictlyImproves m c) := by
  unfold strictlyImproves; infer_instance

/-- Whether `_save_model` runs at this evaluation event: the save sits
under `if self.opt.model_path_to_save:` and under the improvement test
(`atepc_trainer.py` lines 192–204), and is called exactly once there. -/
def saveOccursAt (model_path_to_save : Bool) (m : MaxMetrics) (c : EvalMetrics) : Bool :=
  model_path_to_save && decide (strictlyImproves m c)

/-- The three independent updates of `atepc_trainer.py` lines 206–211. -/
def updateMaxima (m : MaxMetrics) (c : EvalMetrics) : MaxMetrics :=
  { max_apc_test_acc :=
      if c.apc_acc > m.max_apc_test_acc then c.apc_acc else m.max_apc_test_acc
    max_apc_test_f1 :=
      if c.apc_f1 > m.max_apc_test_f1 then c.apc_f1 else m.max_apc_test_f1
    max_ate_test_f1 :=
      if c.ate_f1 > m.max_ate_test_f1 then c.ate_f1 else m.max_ate_test_f1 }

/-- The running maxima after a whole sequence of evaluation events. -/
def runMaxima (m : MaxMetrics) : List EvalMetrics → MaxMetrics
  | [] => m
  | c :: cs => runMaxima (updateMaxima m c) cs

/-- One evaluation event as the training loop observes it: the maxima
before the event, the current metrics, whether a checkpoint save happened
(the save decision is taken *before* the maxima are updated), and the
maxima after the event. -/
structure EvalStep where
  before : MaxMetrics
  current : EvalMetrics
  saved : Bool
  after : MaxMetrics
  deriving DecidableEq, Repr

/-- The trace of evaluation events of one training run: for each event,
first the save decision against the current maxima
(`atepc_trainer.py` lines 192–204), then the three maxima updates
(lines 206–211). -/
def evalTrace (model_path_to_save : Bool) (m : MaxMetrics) :
    List EvalMetrics → List EvalStep
  | [] => []
  | c :: cs =>
    { before := m, current := c, saved := saveOccursAt model_path_to_save m c
      after := updateMaxima m c } :: evalTrace model_path_to_save (updateMaxima m c) cs

/-- Component-wise order on the running maxima. -/
def MaxLe (m₁ m₂ : MaxMetrics) : Prop :=
  m₁.max_apc_test_acc ≤ m₂.max_apc_test_acc ∧
    m₁.max_apc_test_f1 ≤ m₂.max_apc_test_f1 ∧
      m₁.max_ate_test_f1 ≤ m₂.max_ate_test_f1

/-! ### `AspectExtractor.extract_aspect` over a list of examples
(`aspect_extractor.py` lines 132–150).

`self._extract` and `self._infer` are abstracted as fallible functions;
the loop over `examples` contains no `try`/`except`, so its body is a
plain monadic sequence in `Except` and the first raised error aborts the
whole batch. -/

/-- The `elif isinstance(examples, list)` branch of `extract_aspect`:
for each example run `_extract`, then `_infer` when `pred_sentiment`,
and append the pair of results; exceptions are not caught. -/
def extract_aspect_batch {α β γ ε : Type} (ext : α → Except ε β) (inf : β → Except ε γ)
    (pred_sentiment : Bool) : List α → Except ε (List (β × Option γ))
  | [] => .ok []
  | x :: xs => do
    let extraction_res ← ext x
    let polarity_res ←
      if pred_sentiment then do
        let r ← inf extraction_res
        pure (some r)
      else
        pure (none : Option γ)
    let rest ← extract_aspect_batch ext inf pred_sentiment xs
    pure ((extraction_res, polarity_res) :: rest)

/-! ### The LCF fusion branch of `LCF_ATEPC_LARGE.forward`
(`lcf_atepc_large.py` lines 97–115).

The tensor blocks (`SA1`, `linear_double`, `linear_triple`, the two
element-wise multiplications by the fusion vectors, and concatenation
along the hidden axis) are abstracted as functions over an arbitrary
feature type `F`; the definition transcribes which blocks are applied in
which order in each branch.  A missing branch leaves `cat_out` unbound in
the source, hence `none`. -/

/-- `cat_out` as computed by `forward` for a given `opt.lcf` mode. -/
def forwardCatOut {F : Type} (lcf : String) (SA1 : F → F)
    (linear_double linear_triple : F → F) (cat2 : F → F → F) (cat3 : F → F → F → F)
    (mulCdm mulCdw : F → F) (global_context_out local_context_out : F) : Option F :=
  if strIn "cdm" lcf then
    some (linear_double (cat2 global_context_out (SA1 (mulCdm local_context_out))))
  else if strIn "cdw" lcf then
    some (linear_double (cat2 global_context_out (SA1 (mulCdw local_context_out))))
  else if strIn "fusion" lcf then
    some (linear_triple (cat3 global_context_out (mulCdw local_context_out)
      (mulCdm local_context_out)))
  else
    none

/-- `cat_out` as the specification describes it: in every mode each
fusion-vector-weighted local context output passes through the
self-attention refinement block before being concatenated with the
global features and projected down.  This definition follows the spec's
words, for comparison with `forwardCatOut` taken from the source. -/
def specForwardCatOut {F : Type} (lcf : String) (SA1 : F → F)
    (linear_double linear_triple : F → F) (cat2 : F → F → F) (cat3 : F → F → F → F)
    (mulCdm mulCdw : F → F) (global_context_out local_context_out : F) : Option F :=
  if strIn "cdm" lcf then
    some (linear_double (cat2 global_context_out (SA1 (mulCdm local_context_out))))
  else if strIn "cdw" lcf then
    some (linear_double (cat2 global_context_out (SA1 (mulCdw local_context_out))))
  else if strIn "fusion" lcf then
    some (linear_triple (cat3 global_context_out (SA1 (mulCdw local_context_out))
      (SA1 (mulCdm local_context_out))))
  else
    none

/-! ### APC dataset polarity-label validation
(`data_utils_for_training.py` lines 100–105). -/

/-- The label validation and dimension inference at the end of
`ABSADataset.__init__`: `p_min, p_max = min(polarities_set), max(...)`,
the negative-label `RuntimeError`, the
`assert sorted(list(polarities_set)) == sorted(list(range(p_max - p_min + 1)))`,
and finally `opt.polarities_dim = len(polarities_set)`.  `labels` is the
list of polarity labels of the training records, in file order. -/
def absaPolarityCheck (labels : List Int) : Except String Nat :=
  match labels with
  | [] => .error "ValueError: min() arg is an empty sequence"
  | a :: rest =>
    let p_min := rest.foldl min a
    let p_max := rest.foldl max a
    if p_min < 0 then
      .error "RuntimeError: Invalid sentiment label detected"
    else if (a :: rest).dedup.insertionSort (· ≤ ·) =
        (List.range (p_max - p_min + 1).toNat).map Int.ofNat then
      .ok (a :: rest).dedup.length
    else
      .error "AssertionError"

/-- The largest observed label (`p_max` of the source; `0` only for the
empty list, on which the source raises before using it). -/
def maxLabel : List Int → Int
  | [] => 0
  | a :: rest => rest.foldl max a

/-! ### Aspect-span masking in `AspectExtractor._extract`
(`aspect_extractor.py` lines 203–241).

`pred_iobs` is the decoded word-level tag list; `polarity` is built next
to it with `-SENTIMENT_PADDING` at positions whose tag contains `'ASP'`
and `SENTIMENT_PADDING` elsewhere.  The `while asp_idx < asp_num` loop
runs once per `'B-ASP'` occurrence; each pass scans for the first span
boundary (a `B-ASP`/`I-ASP` whose successor is not an `ASP` tag), emits a
view of the current lists with everything after the boundary padded, and
clears everything up to the boundary in the working lists. -/

/-- `SENTIMENT_PADDING`: the sentiment padding sentinel; the padding key
of the default sentiment dictionary (`aspect_extractor.py` lines 275 and
278 map key `-999` to the empty string, matching
`sentiment_map[SENTIMENT_PADDING] = ''` of `set_sentiment_map`). -/
def SENTIMENT_PADDING : Int := -999

/-- The per-token polarity list built in the `zip(all_tokens[0], pred_iobs)`
loop (`aspect_extractor.py` lines 214–219); the tokens and the tag list
have equal length, and only the tag decides each entry. -/
def initPolarity (pred_iobs : List String) : List Int :=
  pred_iobs.map (fun l => if strIn "ASP" l then -SENTIMENT_PADDING else SENTIMENT_PADDING)

/-- The condition of `aspect_extractor.py` lines 231–232:
`'B-ASP' == pred_iobs[i] and 'ASP' not in pred_iobs[i+1] or
'I-ASP' == pred_iobs[i] and 'ASP' not in pred_iobs[i+1]`. -/
def boundaryHere (x y : String) : Bool :=
  (x = "B-ASP" && !(strIn "ASP" y)) || (x = "I-ASP" && !(strIn "ASP" y))

/-- The scan `for iob_idx in range(len(_pred_iobs) - 1)` with `break` at
the first position satisfying `boundaryHere` — the index of the first
detected span boundary, if any. -/
def findBoundary : List String → Option Nat
  | [] => none
  | [_] => none
  | x :: y :: rest =>
    if boundaryHere x y then some 0 else (findBoundary (y :: rest)).map (· + 1)

/-- The body of the `while asp_idx < asp_num` loop, run `k` times over
the working lists `pred_iobs` and `polarity`; `n = len(pred_iobs)` sizes
`IOB_PADDING` and `POLARITY_PADDING` (both built once, before the loop).
When a boundary at `i` is found, the emitted view keeps the lists up to
`i` and pads the rest (`_pred_iobs[:i+1] + IOB_PADDING[i+1:]`), and the
working lists are cleared up to `i`
(`IOB_PADDING[:i+1] + pred_iobs[i+1:]`); without a boundary the view is
the unchanged working lists. -/
def extractSpansLoop (tokens : List String) (n : Nat) :
    Nat → List String → List Int → List (List String × List String × List Int)
  | 0, _, _ => []
  | k + 1, pred_iobs, polarity =>
    match findBoundary pred_iobs with
    | some i =>
      (tokens,
        pred_iobs.take (i + 1) ++ (List.replicate n "O").drop (i + 1),
        polarity.take (i + 1) ++ (List.replicate n SENTIMENT_PADDING).drop (i + 1)) ::
        extractSpansLoop tokens n k
          ((List.replicate n "O").take (i + 1) ++ pred_iobs.drop (i + 1))
          ((List.replicate n SENTIMENT_PADDING).take (i + 1) ++ polarity.drop (i + 1))
    | none =>
      (tokens, pred_iobs, polarity) :: extractSpansLoop tokens n k pred_iobs polarity

/-- The extraction results appended to `res` for one sentence
(`aspect_extractor.py` lines 212–240): one `(tokens, tags, polarity)`
view per counted `'B-ASP'`. -/
def extractionResults (tokens pred_iobs : List String) :
    List (List String × List String × List Int) :=
  extractSpansLoop tokens pred_iobs.length (pred_iobs.count "B-ASP")
    pred_iobs (initPolarity pred_iobs)

/-- A word-level BIO tag sequence holding exactly two well-formed aspect
spans (`B-ASP` followed by `I-ASP`s), separated by at least one `O` and
with arbitrary `O` context around them. -/
def twoSpanTags (a b c d e : Nat) : List String :=
  List.replicate a "O" ++ "B-ASP" :: List.replicate b "I-ASP" ++
    List.replicate (c + 1) "O" ++ "B-ASP" :: List.replicate d "I-ASP" ++
      List.replicate e "O"

end PyAbsa

namespace PyAbsa

/-! ## Helper lemmas -/

theorem maxLe_refl (m : MaxMetrics) : MaxLe m m :=
  ⟨le_refl _, le_refl _, le_refl _⟩

theorem maxLe_trans {m₁ m₂ m₃ : MaxMetrics} (h₁ : MaxLe m₁ m₂) (h₂ : MaxLe m₂ m₃) :
    MaxLe m₁ m₃ :=
  ⟨le_trans h₁.1 h₂.1, le_trans h₁.2.1 h₂.2.1, le_trans h₁.2.2 h₂.2.2⟩

theorem maxLe_updateMaxima (m : MaxMetrics) (c : EvalMetrics) :
    MaxLe m (updateMaxima m c) := by
  refine ⟨?_, ?_, ?_⟩ <;> simp only [updateMaxima] <;> split <;>
    first
      | exact le_refl _
      | exact le_of_lt (by assumption)

theorem maxLe_runMaxima (m : MaxMetrics) (l : List EvalMetrics) :
    MaxLe m (runMaxima m l) := by
  induction l generalizing m with
  | nil => exact maxLe_refl m
  | cons c cs ih =>
    exact maxLe_trans (maxLe_updateMaxima m c) (ih (updateMaxima m c))

theorem evalTrace_length (sp : Bool) (m : MaxMetrics) (l : List EvalMetrics) :
    (evalTrace sp m l).length = l.length := by
  induction l generalizing m with
  | nil => rfl
  | cons c cs ih => simp [evalTrace, ih]

theorem foldl_min_le_init (a : Int) (l : List Int) : l.foldl min a ≤ a := by
  induction l generalizing a with
  | nil => exact le_refl a
  | cons b t ih =>
    simpa using le_trans (ih (min a b)) (min_le_left a b)

theorem foldl_min_le_mem {x : Int} (a : Int) {l : List Int} (hx : x ∈ l) :
    l.foldl min a ≤ x := by
  induction l generalizing a with
  | nil => cases hx
  | cons b t ih =>
    simp only [List.foldl_cons]
    rcases List.mem_cons.mp hx with rfl | hx'
    · exact le_trans (foldl_min_le_init (min a x) t) (min_le_right a x)
    · exact ih (min a b) hx'

theorem foldl_min_mem (a : Int) (l : List Int) : l.foldl min a ∈ a :: l := by
  induction l generalizing a with
  | nil => exact List.mem_cons_self a []
  | cons b t ih =>
    simp only [List.foldl_cons]
    rcases List.mem_cons.mp (ih (min a b)) with h | h
    · rcases min_choice a b with hab | hab
      · rw [h, hab]; exact List.mem_cons_self _ _
      · rw [h, hab]; exact List.mem_cons_of_mem _ (List.mem_cons_self _ _)
    · exact List.mem_cons_of_mem _ (List.mem_cons_of_mem _ h)

theorem le_foldl_max_init (a : Int) (l : List Int) : a ≤ l.foldl max a := by
  induction l generalizing a with
  | nil => exact le_refl a
  | cons b t ih =>
    simpa using le_trans (le_max_left a b) (ih (max a b))

theorem le_foldl_max_mem {x : Int} (a : Int) {l : List Int} (hx : x ∈ l) :
    x ≤ l.foldl max a := by
  induction l generalizing a with
  | nil => cases hx
  | cons b t ih =>
    simp only [List.foldl_cons]
    rcases List.mem_cons.mp hx with rfl | hx'
    · exact le_trans (le_max_right a x) (le_foldl_max_init (max a x) t)
    · exact ih (max a b) hx'

theorem foldl_max_mem (a : Int) (l : List Int) : l.foldl max a ∈ a :: l := by
  induction l generalizing a with
  | nil => exact List.mem_cons_self a []
  | cons b t ih =>
    simp only [List.foldl_cons]
    rcases List.mem_cons.mp (ih (max a b)) with h | h
    · rcases max_choice a b with hab | hab
      · rw [h, hab]; exact List.mem_cons_self _ _
      · rw [h, hab]; exact List.mem_cons_of_mem _ (List.mem_cons_self _ _)
    · exact List.mem_cons_of_mem _ (List.mem_cons_of_mem _ h)

theorem mem_rangeMap {k : Nat} {x : Int} :
    x ∈ (List.range k).map Int.ofNat ↔ 0 ≤ x ∧ x < (k : Int) := by
  simp only [List.mem_map, List.mem_range, Int.ofNat_eq_natCast]
  constructor
  · rintro ⟨j, hj, rfl⟩
    exact ⟨Int.natCast_nonneg j, by exact_mod_cast hj⟩
  · rintro ⟨h0, hk⟩
    exact ⟨x.toNat, by omega, by omega⟩

theorem sorted_rangeMap (k : Nat) :
    List.Sorted (· ≤ ·) ((List.range k).map Int.ofNat) :=
  List.Pairwise.map _
    (fun _ _ h => by
      simp only [Int.ofNat_eq_natCast]
      exact_mod_cast Nat.le_of_lt h)
    (List.sorted_lt_range k)

theorem nodup_rangeMap (k : Nat) : ((List.range k).map Int.ofNat).Nodup :=
  (List.nodup_range k).map Int.ofNat_injective

theorem mem_sortIns {l : List Int} {x : Int} :
    x ∈ l.dedup.insertionSort (· ≤ ·) ↔ x ∈ l := by
  rw [(List.perm_insertionSort (· ≤ ·) l.dedup).mem_iff, List.mem_dedup]

theorem nodup_sortIns (l : List Int) : (l.dedup.insertionSort (· ≤ ·)).Nodup :=
  ((List.perm_insertionSort (· ≤ ·) l.dedup).nodup_iff).mpr (List.nodup_dedup l)

theorem sorted_sortIns (l : List Int) :
    List.Sorted (· ≤ ·) (l.dedup.insertionSort (· ≤ ·)) :=
  List.sorted_insertionSort (· ≤ ·) l.dedup

theorem sorted_nodup_eq_of_mem_iff {l₁ l₂ : List Int}
    (s₁ : List.Sorted (· ≤ ·) l₁) (s₂ : List.Sorted (· ≤ ·) l₂)
    (n₁ : l₁.Nodup) (n₂ : l₂.Nodup) (h : ∀ x, x ∈ l₁ ↔ x ∈ l₂) : l₁ = l₂ := by
  refine List.eq_of_perm_of_sorted ?_ s₁ s₂
  refine List.perm_of_nodup_nodup_toFinset_eq n₁ n₂ ?_
  ext x
  simpa using h x

theorem strIn_ASP_O : strIn "ASP" "O" = false := rfl

theorem strIn_ASP_B : strIn "ASP" "B-ASP" = true := rfl

theorem strIn_ASP_I : strIn "ASP" "I-ASP" = true := rfl

theorem boundaryHere_O (y : String) : boundaryHere "O" y = false := rfl

theorem boundaryHere_B_O : boundaryHere "B-ASP" "O" = true := rfl

theorem boundaryHere_I_O : boundaryHere "I-ASP" "O" = true := rfl

theorem boundaryHere_B_I : boundaryHere "B-ASP" "I-ASP" = false := rfl

theorem boundaryHere_I_I : boundaryHere "I-ASP" "I-ASP" = false := rfl

theorem findBoundary_O_cons (l : List String) :
    findBoundary ("O" :: l) = (findBoundary l).map (· + 1) := by
  cases l with
  | nil => rfl
  | cons y t =>
    show (if boundaryHere "O" y then some 0
      else (findBoundary (y :: t)).map (· + 1)) = _
    rw [boundaryHere_O]
    simp

theorem findBoundary_rep_O (a : Nat) (l : List String) :
    findBoundary (List.replicate a "O" ++ l) = (findBoundary l).map (· + a) := by
  induction a with
  | zero =>
    show findBoundary l = (findBoundary l).map (· + 0)
    cases findBoundary l <;> simp
  | succ n ih =>
    rw [List.replicate_succ, List.cons_append, findBoundary_O_cons, ih]
    cases findBoundary l with
    | none => rfl
    | some v =>
      show some (v + n + 1) = some (v + (n + 1))
      rw [Nat.add_assoc]

theorem findBoundary_I_run (b : Nat) (t : List String) :
    findBoundary ("I-ASP" :: (List.replicate b "I-ASP" ++ "O" :: t)) = some b := by
  induction b with
  | zero =>
    show (if boundaryHere "I-ASP" "O" then some 0
      else (findBoundary ("O" :: t)).map (· + 1)) = some 0
    rw [boundaryHere_I_O]
    rfl
  | succ n ih =>
    rw [List.replicate_succ, List.cons_append]
    show (if boundaryHere "I-ASP" "I-ASP" then some 0
      else (findBoundary ("I-ASP" :: (List.replicate n "I-ASP" ++ "O" :: t))).map
        (· + 1)) = some (n + 1)
    rw [boundaryHere_I_I, ih]
    rfl

theorem findBoundary_B_run (b : Nat) (t : List String) :
    findBoundary ("B-ASP" :: (List.replicate b "I-ASP" ++ "O" :: t)) = some b := by
  cases b with
  | zero =>
    show (if boundaryHere "B-ASP" "O" then some 0
      else (findBoundary ("O" :: t)).map (· + 1)) = some 0
    rw [boundaryHere_B_O]
    rfl
  | succ n =>
    rw [List.replicate_succ, List.cons_append]
    show (if boundaryHere "B-ASP" "I-ASP" then some 0
      else (findBoundary ("I-ASP" :: (List.replicate n "I-ASP" ++ "O" :: t))).map
        (· + 1)) = some (n + 1)
    rw [boundaryHere_B_I, findBoundary_I_run]
    rfl

theorem findBoundary_I_run_end (b : Nat) :
    findBoundary ("I-ASP" :: List.replicate b "I-ASP") = none := by
  induction b with
  | zero => rfl
  | succ n ih =>
    rw [List.replicate_succ]
    show (if boundaryHere "I-ASP" "I-ASP" then some 0
      else (findBoundary ("I-ASP" :: List.replicate n "I-ASP")).map (· + 1)) = none
    rw [boundaryHere_I_I, ih]
    rfl

theorem findBoundary_B_run_end (b : Nat) :
    findBoundary ("B-ASP" :: List.replicate b "I-ASP") = none := by
  cases b with
  | zero => rfl
  | succ n =>
    rw [List.replicate_succ]
    show (if boundaryHere "B-ASP" "I-ASP" then some 0
      else (findBoundary ("I-ASP" :: List.replicate n "I-ASP")).map (· + 1)) = none
    rw [boundaryHere_B_I, findBoundary_I_run_end]
    rfl

theorem take_prefix_shape {α : Type} (A B ys : List α) (x : α) (m : Nat)
    (hm : A.length + B.length + 1 = m) :
    (A ++ (x :: (B ++ ys))).take m = A ++ x :: B ∧
      (A ++ (x :: (B ++ ys))).drop m = ys := by
  have hsh : A ++ (x :: (B ++ ys)) = (A ++ x :: B) ++ ys := by simp
  have hlen : (A ++ x :: B).length = m := by
    simp only [List.length_append, List.length_cons]
    omega
  rw [hsh]
  exact ⟨List.take_left' hlen, List.drop_left' hlen⟩

theorem extractSpansLoop_step_some (tokens : List String) (n k i : Nat)
    (pred : List String) (pol : List Int) (h : findBoundary pred = some i) :
    extractSpansLoop tokens n (k + 1) pred pol =
      (tokens, pred.take (i + 1) ++ (List.replicate n "O").drop (i + 1),
        pol.take (i + 1) ++ (List.replicate n SENTIMENT_PADDING).drop (i + 1)) ::
        extractSpansLoop tokens n k
          ((List.replicate n "O").take (i + 1) ++ pred.drop (i + 1))
          ((List.replicate n SENTIMENT_PADDING).take (i + 1) ++ pol.drop (i + 1)) := by
  simp only [extractSpansLoop, h]

theorem extractSpansLoop_step_none (tokens : List String) (n k : Nat)
    (pred : List String) (pol : List Int) (h : findBoundary pred = none) :
    extractSpansLoop tokens n (k + 1) pred pol =
      (tokens, pred, pol) :: extractSpansLoop tokens n k pred pol := by
  simp only [extractSpansLoop, h]

end PyAbsa

namespace PyAbsa

/-! ## Claim theorems (C1, C4, C5, C6, C8, C9, C10) -/

/-- C1: for a configuration with `gradient_accumulation_steps < 1` the
`train4atepc` loop never raises and never finishes — the `ValueError` of
`Instructor.__init__` is caught by `except ValueError` and retried
forever — while a genuine connection failure while fetching the encoder
is *not* caught: it propagates out of the loop on the first attempt.
(The claim states the opposite on both counts.) -/
theorem train4atepc_retries_value_error_forever (gas : Int) (hgas : gas < 1)
    (fetchOk : Nat → Bool) (k fuel : Nat) :
    train4atepcLoop gas fetchOk k fuel = .ok none ∧
      train4atepcLoop 1 (fun _ => false) 0 (fuel + 1) = .error .connectionError := by
  constructor
  · induction fuel generalizing k with
    | zero => rfl
    | succ n ih =>
      simp only [train4atepcLoop, instructorInit, if_pos hgas]
      exact ih (k + 1)
  · simp [train4atepcLoop, instructorInit]

/-- C1 witness: `train4atepc_retries_value_error_forever` at
`gradient_accumulation_steps = 0`, five observed attempts. -/
theorem train4atepc_retries_value_error_forever_witness :
    (0 : Int) < 1 ∧
      (train4atepcLoop 0 (fun _ => true) 0 5 = .ok none ∧
        train4atepcLoop 1 (fun _ => false) 0 (5 + 1) = .error .connectionError) :=
  ⟨by decide, train4atepc_retries_value_error_forever 0 (by decide) (fun _ => true) 0 5⟩

/-- C4: the batch loop body of `Instructor.train` advances `global_step`
by exactly two — `global_step += 1` appears twice in succession
(`atepc_trainer.py` lines 174–175) — and therefore never by exactly one,
while the per-epoch step counter `nb_tr_steps` advances by one. -/
theorem processBatch_global_step (st : TrainCounters) (loss : ℚ) (bs : Nat) :
    (processBatch st loss bs).global_step = st.global_step + 2 ∧
      (processBatch st loss bs).global_step ≠ st.global_step + 1 ∧
        (processBatch st loss bs).nb_tr_steps = st.nb_tr_steps + 1 := by
  refine ⟨rfl, ?_, rfl⟩
  simp only [processBatch]
  omega

/-- C5 counterexample: the held-out evaluation loader of the Instructor
is built with `RandomSampler` (`atepc_trainer.py` line 110), not a
sequential sampler, so the order it visits examples in depends on the
random draw: two passes with different draws visit different orders. -/
theorem eval_sampler_not_sequential :
    atepcEvalSampler ≠ SamplerKind.sequential ∧
      loaderVisitOrder atepcEvalSampler 2 [1, 0] ≠
        loaderVisitOrder atepcEvalSampler 2 [0, 1] ∧
      loaderVisitOrder atepcEvalSampler 2 [1, 0] ≠ List.range 2 := by
  refine ⟨by decide, by decide, by decide⟩

/-- C5 amended: it is the *training* loader and the two inference
loaders of `AspectExtractor` that are sequential (hence deterministic
and draw-independent), while the evaluation loader follows the random
draw. -/
theorem sampler_orders (n : Nat) (draw draw' : List Nat) :
    loaderVisitOrder atepcTrainSampler n draw = List.range n ∧
      loaderVisitOrder extractSamplerKind n draw = List.range n ∧
        loaderVisitOrder inferSamplerKind n draw = List.range n ∧
          loaderVisitOrder atepcTrainSampler n draw =
            loaderVisitOrder atepcTrainSampler n draw' ∧
            loaderVisitOrder atepcEvalSampler n draw = draw :=
  ⟨rfl, rfl, rfl, rfl, rfl⟩

/-- C6: the parameters are indeed split into a bias/normalization group
and a rest group, but *both* groups are given `weight_decay = l2reg`
(`atepc_trainer.py` lines 119–124): a parameter named `encoder.bias` or
`encoder.LayerNorm.weight` is assigned the configured `l2reg`, not zero. -/
theorem no_decay_group_gets_l2reg (l2reg : ℚ) :
    isNoDecayName "encoder.bias" = true ∧
      isNoDecayName "encoder.LayerNorm.weight" = true ∧
        isNoDecayName "encoder.attention.weight" = false ∧
          decayAssignedTo "encoder.bias" l2reg = l2reg ∧
            decayAssignedTo "encoder.LayerNorm.weight" l2reg = l2reg ∧
              (optimizer_grouped_parameters ["encoder.attention.weight", "encoder.bias"]
                  l2reg).map ParamGroup.weight_decay = [l2reg, l2reg] :=
  ⟨rfl, rfl, rfl, rfl, rfl, rfl⟩

/-- C8 counterexample: in the list branch of
`AspectExtractor.extract_aspect` there is no per-example `try`/`except`:
an error raised on the second of three examples aborts the whole batch —
no result is reported for the third example, which would have succeeded
on its own. -/
theorem batch_error_aborts_batch :
    extract_aspect_batch
        (fun n : Nat => if n = 2 then .error "failure on example 2" else .ok n)
        (fun n => .ok n) true [1, 2, 3] = .error "failure on example 2" ∧
      extract_aspect_batch
        (fun n : Nat => if n = 2 then .error "failure on example 2" else .ok n)
        (fun n => .ok n) true [3] = .ok [(3, some 3)] := by
  exact ⟨rfl, rfl⟩

/-- C8 amended: an error raised while processing a single example of a
batch propagates out of `extract_aspect` at once, aborting the remaining
examples; nothing is caught per-example (and, as the claim says, nothing
is caught during training either). -/
theorem batch_error_propagates {α β γ : Type} (ext : α → Except String β)
    (inf : β → Except String γ) (pred_sentiment : Bool) (x : α) (xs : List α)
    (e : String) (hx : ext x = .error e) :
    extract_aspect_batch ext inf pred_sentiment (x :: xs) = .error e := by
  simp only [extract_aspect_batch, hx]
  rfl

/-- C8 witness: `batch_error_propagates` at a batch of two examples whose
first example fails. -/
theorem batch_error_propagates_witness :
    (fun _ : Nat => (.error "boom" : Except String Nat)) 0 = .error "boom" ∧
      extract_aspect_batch (fun _ : Nat => (.error "boom" : Except String Nat))
        (fun n => .ok n) true [0, 1] = .error "boom" :=
  ⟨rfl, batch_error_propagates _ (fun n => .ok n) true 0 [1] "boom" rfl⟩

/-- C2: along any sequence of evaluation events of one training run,
every observed evaluation step has its running maxima sandwiched
monotonically between the initial maxima and the final maxima (so the
three running maxima never decrease), the maxima after the step are the
three independent updates of the maxima before it, a checkpoint save
occurs at the step iff a save path is configured and at least one
current metric strictly exceeds its running maximum at that step, and
there is exactly one save decision per evaluation event. -/
theorem checkpoint_policy (sp : Bool) (m₀ : MaxMetrics) (events : List EvalMetrics)
    (step : EvalStep) (hstep : step ∈ evalTrace sp m₀ events) :
    (evalTrace sp m₀ events).length = events.length ∧
      MaxLe m₀ step.before ∧
        MaxLe step.before step.after ∧
          MaxLe step.after (runMaxima m₀ events) ∧
            step.after = updateMaxima step.before step.current ∧
              (step.saved = true ↔ (sp = true ∧ strictlyImproves step.before step.current)) := by
  refine ⟨evalTrace_length sp m₀ events, ?_⟩
  induction events generalizing m₀ with
  | nil => simp [evalTrace] at hstep
  | cons c cs ih =>
    simp only [evalTrace, List.mem_cons] at hstep
    rcases hstep with h | h
    · subst h
      refine ⟨maxLe_refl m₀, maxLe_updateMaxima m₀ c, ?_, rfl, ?_⟩
      · exact maxLe_runMaxima (updateMaxima m₀ c) cs
      · simp [saveOccursAt, decide_eq_true_iff]
    · obtain ⟨hbefore, hba, hafter, hupd, hsave⟩ := ih (updateMaxima m₀ c) h
      exact ⟨maxLe_trans (maxLe_updateMaxima m₀ c) hbefore, hba, hafter, hupd, hsave⟩

/-- C2 witness: `checkpoint_policy` at a single evaluation event with
all three metrics strictly above the initial maxima, under a configured
save path. -/
theorem checkpoint_policy_witness :
    ((⟨⟨0, 0, 0⟩, ⟨1, 2, 3⟩, true, ⟨1, 2, 3⟩⟩ : EvalStep) ∈
        evalTrace true initMaxMetrics [⟨1, 2, 3⟩]) ∧
      (true = true ↔ (true = true ∧ strictlyImproves ⟨0, 0, 0⟩ ⟨1, 2, 3⟩)) :=
  ⟨by decide,
    (checkpoint_policy true initMaxMetrics [⟨1, 2, 3⟩]
      ⟨⟨0, 0, 0⟩, ⟨1, 2, 3⟩, true, ⟨1, 2, 3⟩⟩ (by decide)).2.2.2.2.2⟩

/-- C3 counterexample: the label set `{1, 2}` is exactly the contiguous
range `{min..max}`, yet `ABSADataset.__init__` rejects it — the assert
compares the sorted label set against `range(p_max - p_min + 1)`, i.e.
against `{0, 1}`, so any contiguous range not starting at 0 fails. -/
theorem contiguous_min_max_labels_rejected :
    ([1, 2] : List Int).dedup.insertionSort (· ≤ ·) = [1, 2] ∧
      absaPolarityCheck [1, 2] = .error "AssertionError" := by
  constructor
  · decide
  · rfl

/-- C3 amended: dataset construction succeeds iff the observed polarity
labels are exactly the contiguous range `{0..max}` (contiguous *and
starting at zero*); the inferred dimensionality then equals `max + 1`;
every violating label set (gaps, negatives, or a positive minimum) is a
fatal error at dataset-build time, never a silent skip. -/
theorem absaPolarityCheck_ok_iff (labels : List Int) (h : labels ≠ []) :
    ((∃ n, absaPolarityCheck labels = .ok n) ↔
        ∀ x : Int, x ∈ labels ↔ 0 ≤ x ∧ x ≤ maxLabel labels) ∧
      ∀ n, absaPolarityCheck labels = .ok n → n = (maxLabel labels).toNat + 1 := by
  obtain ⟨a, rest, rfl⟩ := List.exists_cons_of_ne_nil h
  have hminle : ∀ x ∈ a :: rest, rest.foldl min a ≤ x := by
    intro x hx
    rcases List.mem_cons.mp hx with heq | hx'
    · rw [heq]
      exact foldl_min_le_init a rest
    · exact foldl_min_le_mem a hx'
  have hminmem : rest.foldl min a ∈ a :: rest := foldl_min_mem a rest
  have hmaxle : ∀ x ∈ a :: rest, x ≤ rest.foldl max a := by
    intro x hx
    rcases List.mem_cons.mp hx with heq | hx'
    · rw [heq]
      exact le_foldl_max_init a rest
    · exact le_foldl_max_mem a hx'
  have hmaxmem : rest.foldl max a ∈ a :: rest := foldl_max_mem a rest
  have hml : maxLabel (a :: rest) = rest.foldl max a := rfl
  have hminmax : rest.foldl min a ≤ rest.foldl max a :=
    le_trans (hminle _ hmaxmem) (le_refl _)
  simp only [absaPolarityCheck]
  by_cases hneg : rest.foldl min a < 0
  · rw [if_pos hneg]
    constructor
    · constructor
      · rintro ⟨n, hn⟩
        exact Except.noConfusion hn
      · intro hchar
        exact absurd ((hchar _).mp hminmem).1 (by omega)
    · intro n hn
      exact Except.noConfusion hn
  · rw [if_neg hneg]
    have hneg' : (0 : Int) ≤ rest.foldl min a := not_lt.mp hneg
    by_cases hsort : (a :: rest).dedup.insertionSort (· ≤ ·) =
        (List.range (rest.foldl max a - rest.foldl min a + 1).toNat).map Int.ofNat
    · rw [if_pos hsort]
      have hk : (((rest.foldl max a - rest.foldl min a + 1).toNat : Nat) : Int) =
          rest.foldl max a - rest.foldl min a + 1 := by omega
      have hmemIff : ∀ x : Int, x ∈ (a :: rest : List Int) ↔
          (0 ≤ x ∧ x < (((rest.foldl max a - rest.foldl min a + 1).toNat : Nat) : Int)) := by
        intro x
        rw [← mem_sortIns (l := a :: rest), hsort, mem_rangeMap]
      have hmin0 : rest.foldl min a = 0 := by
        have h1 := (hmemIff _).mp hminmem
        have h2 := (hmemIff _).mp hmaxmem
        omega
      constructor
      · constructor
        · intro _ x
          rw [hml, hmemIff x]
          omega
        · intro _
          exact ⟨_, rfl⟩
      · intro n hn
        have hlen : (a :: rest).dedup.length = n := by
          injection hn
        have h1 : ((a :: rest).dedup.insertionSort (· ≤ ·)).length =
            (a :: rest).dedup.length :=
          (List.perm_insertionSort (· ≤ ·) _).length_eq
        rw [hsort] at h1
        simp only [List.length_map, List.length_range] at h1
        rw [hml]
        omega
    · rw [if_neg hsort]
      constructor
      · constructor
        · rintro ⟨n, hn⟩
          exact Except.noConfusion hn
        · intro hchar
          exfalso
          apply hsort
          rw [hml] at hchar
          have h0max : (0 : Int) ≤ rest.foldl max a := ((hchar _).mp hmaxmem).1
          have h0mem : (0 : Int) ∈ (a :: rest : List Int) :=
            (hchar 0).mpr ⟨le_refl 0, h0max⟩
          have hmin0 : rest.foldl min a = 0 :=
            le_antisymm (hminle 0 h0mem) hneg'
          have hk : (((rest.foldl max a - rest.foldl min a + 1).toNat : Nat) : Int) =
              rest.foldl max a - rest.foldl min a + 1 := by omega
          refine sorted_nodup_eq_of_mem_iff (sorted_sortIns _) (sorted_rangeMap _)
            (nodup_sortIns _) (nodup_rangeMap _) ?_
          intro x
          rw [mem_sortIns, hchar x, mem_rangeMap]
          omega
      · intro n hn
        exact Except.noConfusion hn

/-- C3 witness: `absaPolarityCheck_ok_iff` at the label list `[0, 1]`. -/
theorem absaPolarityCheck_ok_iff_witness :
    ((0 : Int) :: [1] ≠ []) ∧
      ((∃ n, absaPolarityCheck [0, 1] = .ok n) ↔
        ∀ x : Int, x ∈ ([0, 1] : List Int) ↔ 0 ≤ x ∧ x ≤ maxLabel [0, 1]) :=
  ⟨by decide, (absaPolarityCheck_ok_iff [0, 1] (by decide)).1⟩

/-- C9 counterexample: in `fusion` mode the two fusion-vector-weighted
local context outputs are concatenated with the global features
*without* passing through the `SA1` self-attention block
(`lcf_atepc_large.py` lines 107–111), so the computed `cat_out` differs
from the spec's description (instantiated over `F = ℕ` with injectively
chosen blocks: the code yields `0 + 10 + 10 = 20`, the spec's wording
`0 + 11 + 11 = 22`). -/
theorem fusion_skips_self_attention :
    forwardCatOut (F := Nat) "fusion" (· + 1) id id (· + ·) (fun a b c => a + b + c)
        id id 0 10 = some 20 ∧
      specForwardCatOut (F := Nat) "fusion" (· + 1) id id (· + ·) (fun a b c => a + b + c)
          id id 0 10 = some 22 ∧
        forwardCatOut (F := Nat) "fusion" (· + 1) id id (· + ·) (fun a b c => a + b + c)
            id id 0 10 ≠
          specForwardCatOut (F := Nat) "fusion" (· + 1) id id (· + ·)
            (fun a b c => a + b + c) id id 0 10 := by
  refine ⟨rfl, rfl, by decide⟩

/-- C9 amended: in `cdm` and `cdw` modes the weighted local context
output does pass through `SA1` before the concatenation and the
projection to width `H`, exactly as the spec says; in `fusion` mode the
CDW- and CDM-weighted branches are triple-concatenated with the global
features directly and projected by `linear_triple`, with no `SA1`
refinement on either branch. -/
theorem forwardCatOut_branches {F : Type} (SA1 linear_double linear_triple : F → F)
    (cat2 : F → F → F) (cat3 : F → F → F → F) (mulCdm mulCdw : F → F) (g l : F) :
    forwardCatOut "cdm" SA1 linear_double linear_triple cat2 cat3 mulCdm mulCdw g l =
        some (linear_double (cat2 g (SA1 (mulCdm l)))) ∧
      forwardCatOut "cdw" SA1 linear_double linear_triple cat2 cat3 mulCdm mulCdw g l =
          some (linear_double (cat2 g (SA1 (mulCdw l)))) ∧
        forwardCatOut "fusion" SA1 linear_double linear_triple cat2 cat3 mulCdm mulCdw g l =
            some (linear_triple (cat3 g (mulCdw l) (mulCdm l))) ∧
          forwardCatOut "cdm" SA1 linear_double linear_triple cat2 cat3 mulCdm mulCdw g l =
              specForwardCatOut "cdm" SA1 linear_double linear_triple cat2 cat3
                mulCdm mulCdw g l ∧
            forwardCatOut "cdw" SA1 linear_double linear_triple cat2 cat3 mulCdm mulCdw g l =
              specForwardCatOut "cdw" SA1 linear_double linear_triple cat2 cat3
                mulCdm mulCdw g l :=
  ⟨rfl, rfl, rfl, rfl, rfl⟩

/-- C10: a token-id row without the separator id 102 has every position
after index 0 zeroed by `get_ids_for_local_context_extractor`
(`np.argmax` of an all-false mask is 0), and a label row without tag
id 5 is treated the same way by
`get_batch_token_labels_bert_base_indices`. -/
theorem no_separator_zeroes_row (idRow labelRow : List Int)
    (h102 : (102 : Int) ∉ idRow) (h5 : (5 : Int) ∉ labelRow) :
    get_ids_for_local_context_extractor [idRow] =
        [idRow.take 1 ++ List.replicate (idRow.length - 1) 0] ∧
      get_batch_token_labels_bert_base_indices [labelRow] =
        [labelRow.take 1 ++ List.replicate (labelRow.length - 1) 0] := by
  have key : ∀ (v : Int) (row : List Int), v ∉ row → npArgmaxEq v row = 0 := by
    intro v row hv
    have : row.findIdx? (· = v) = none := by
      rw [List.findIdx?_eq_none_iff]
      intro x hx
      simp only [decide_eq_false_iff_not]
      exact fun hxv => hv (hxv ▸ hx)
    simp [npArgmaxEq, this]
  constructor
  · simp [get_ids_for_local_context_extractor, zeroAfterSep, key 102 idRow h102]
  · simp [get_batch_token_labels_bert_base_indices, zeroAfterSep, key 5 labelRow h5]

/-- C10 witness: `no_separator_zeroes_row` at the rows `[101, 7, 8]` and
`[1, 2, 3]`. -/
theorem no_separator_zeroes_row_witness :
    ((102 : Int) ∉ ([101, 7, 8] : List Int) ∧ (5 : Int) ∉ ([1, 2, 3] : List Int)) ∧
      (get_ids_for_local_context_extractor [[101, 7, 8]] = [[101, 0, 0]] ∧
        get_batch_token_labels_bert_base_indices [[1, 2, 3]] = [[1, 0, 0]]) :=
  ⟨by decide, no_separator_zeroes_row [101, 7, 8] [1, 2, 3] (by decide) (by decide)⟩

/-- C7 counterexample: the tag sequence `[B-ASP, B-ASP]` holds exactly
two non-overlapping (adjacent) single-token aspect spans; `_extract`
emits two result tuples, but in *neither* tuple is the other span reset
to `O`/padding — the boundary scan requires the tag *after* a span to be
a non-`ASP` tag, which never happens for adjacent spans. -/
theorem adjacent_spans_not_masked :
    extractionResults ["case", "battery"] ["B-ASP", "B-ASP"] =
        [(["case", "battery"], ["B-ASP", "B-ASP"], [999, 999]),
          (["case", "battery"], ["B-ASP", "B-ASP"], [999, 999])] ∧
      extractionResults ["case", "battery"] ["B-ASP", "B-ASP"] ≠
        [(["case", "battery"], ["B-ASP", "O"], [999, -999]),
          (["case", "battery"], ["O", "B-ASP"], [-999, 999])] := by
  exact ⟨rfl, by decide⟩

/-- C7 amended: for every predicted tag sequence holding exactly two
non-overlapping aspect spans *separated by at least one non-aspect tag*
(`O^a B-ASP I-ASP^b O^(c+1) B-ASP I-ASP^d O^e`), `_extract` produces
exactly two result tuples, and in each tuple the positions of the other
span are reset to the `O` tag and the sentiment padding sentinel, so
exactly one span remains visible per tuple.  (Adjacent spans — an empty
separator — are the exception the counterexample exhibits.) -/
theorem extraction_masks_other_span (tokens : List String) (a b c d e : Nat) :
    extractionResults tokens (twoSpanTags a b c d e) =
      [ (tokens,
          List.replicate a "O" ++ "B-ASP" :: List.replicate b "I-ASP" ++
            List.replicate (c + 2 + d + e) "O",
          List.replicate a SENTIMENT_PADDING ++ (-SENTIMENT_PADDING) ::
            List.replicate b (-SENTIMENT_PADDING) ++
              List.replicate (c + 2 + d + e) SENTIMENT_PADDING),
        (tokens,
          List.replicate (a + b + c + 2) "O" ++ "B-ASP" :: List.replicate d "I-ASP" ++
            List.replicate e "O",
          List.replicate (a + b + c + 2) SENTIMENT_PADDING ++ (-SENTIMENT_PADDING) ::
            List.replicate d (-SENTIMENT_PADDING) ++
              List.replicate e SENTIMENT_PADDING) ] := by
  have hshape : twoSpanTags a b c d e =
      List.replicate a "O" ++ ("B-ASP" :: (List.replicate b "I-ASP" ++ "O" ::
        (List.replicate c "O" ++ ("B-ASP" :: (List.replicate d "I-ASP" ++
          List.replicate e "O"))))) := by
    simp [twoSpanTags, List.replicate_succ]
  have hn : (twoSpanTags a b c d e).length = a + b + c + d + e + 3 := by
    rw [hshape]
    simp only [List.length_append, List.length_cons, List.length_replicate]
    omega
  have hcount : (twoSpanTags a b c d e).count "B-ASP" = 2 := by
    rw [hshape]
    simp [List.count_append, List.count_cons, List.count_replicate, beq_iff_eq]
  have hpol : initPolarity (twoSpanTags a b c d e) =
      List.replicate a SENTIMENT_PADDING ++ ((-SENTIMENT_PADDING) ::
        (List.replicate b (-SENTIMENT_PADDING) ++ SENTIMENT_PADDING ::
          (List.replicate c SENTIMENT_PADDING ++ ((-SENTIMENT_PADDING) ::
            (List.replicate d (-SENTIMENT_PADDING) ++
              List.replicate e SENTIMENT_PADDING))))) := by
    rw [hshape]
    simp [initPolarity, strIn_ASP_O, strIn_ASP_B, strIn_ASP_I]
  have h1 : findBoundary (twoSpanTags a b c d e) = some (b + a) := by
    rw [hshape, findBoundary_rep_O, findBoundary_B_run]
    rfl
  show extractSpansLoop tokens (twoSpanTags a b c d e).length
      ((twoSpanTags a b c d e).count "B-ASP") (twoSpanTags a b c d e)
      (initPolarity (twoSpanTags a b c d e)) = _
  rw [hcount, hn,
    extractSpansLoop_step_some tokens (a + b + c + d + e + 3) 1 (b + a)
      (twoSpanTags a b c d e) (initPolarity (twoSpanTags a b c d e)) h1]
  -- first emitted view: tags
  have htags := take_prefix_shape (List.replicate a "O") (List.replicate b "I-ASP")
    ("O" :: (List.replicate c "O" ++ ("B-ASP" :: (List.replicate d "I-ASP" ++
      List.replicate e "O")))) "B-ASP" (b + a + 1) (by simp; omega)
  have hpols := take_prefix_shape (List.replicate a SENTIMENT_PADDING)
    (List.replicate b (-SENTIMENT_PADDING))
    (SENTIMENT_PADDING :: (List.replicate c SENTIMENT_PADDING ++ ((-SENTIMENT_PADDING) ::
      (List.replicate d (-SENTIMENT_PADDING) ++ List.replicate e SENTIMENT_PADDING))))
    (-SENTIMENT_PADDING) (b + a + 1) (by simp; omega)
  rw [hpol, hshape, htags.1, htags.2, hpols.1, hpols.2, List.take_replicate,
    List.take_replicate, List.drop_replicate, List.drop_replicate]
  have hmin : min (b + a + 1) (a + b + c + d + e + 3) = b + a + 1 := by omega
  have hrest : a + b + c + d + e + 3 - (b + a + 1) = c + 2 + d + e := by omega
  rw [hmin, hrest]
  -- the cleared working lists for the second pass, in canonical shape
  have hwtags : List.replicate (b + a + 1) "O" ++ ("O" ::
      (List.replicate c "O" ++ ("B-ASP" :: (List.replicate d "I-ASP" ++
        List.replicate e "O")))) =
      List.replicate (a + b + c + 2) "O" ++ ("B-ASP" :: (List.replicate d "I-ASP" ++
        List.replicate e "O")) := by
    have h₁ : ("O" : String) :: (List.replicate c "O" ++ ("B-ASP" ::
        (List.replicate d "I-ASP" ++ List.replicate e "O"))) =
        List.replicate (c + 1) "O" ++ ("B-ASP" ::
          (List.replicate d "I-ASP" ++ List.replicate e "O")) := rfl
    rw [h₁, ← List.append_assoc, ← List.replicate_add]
    have h₂ : b + a + 1 + (c + 1) = a + b + c + 2 := by omega
    rw [h₂]
  have hwpols : List.replicate (b + a + 1) SENTIMENT_PADDING ++ (SENTIMENT_PADDING ::
      (List.replicate c SENTIMENT_PADDING ++ ((-SENTIMENT_PADDING) ::
        (List.replicate d (-SENTIMENT_PADDING) ++ List.replicate e SENTIMENT_PADDING)))) =
      List.replicate (a + b + c + 2) SENTIMENT_PADDING ++ ((-SENTIMENT_PADDING) ::
        (List.replicate d (-SENTIMENT_PADDING) ++ List.replicate e SENTIMENT_PADDING)) := by
    have h₁ : SENTIMENT_PADDING :: (List.replicate c SENTIMENT_PADDING ++
        ((-SENTIMENT_PADDING) :: (List.replicate d (-SENTIMENT_PADDING) ++
          List.replicate e SENTIMENT_PADDING))) =
        List.replicate (c + 1) SENTIMENT_PADDING ++ ((-SENTIMENT_PADDING) ::
          (List.replicate d (-SENTIMENT_PADDING) ++
            List.replicate e SENTIMENT_PADDING)) := rfl
    rw [h₁, ← List.append_assoc, ← List.replicate_add]
    have h₂ : b + a + 1 + (c + 1) = a + b + c + 2 := by omega
    rw [h₂]
  rw [hwtags, hwpols]
  -- second pass
  cases e with
  | zero =>
    have h2 : findBoundary (List.replicate (a + b + c + 2) "O" ++
        ("B-ASP" :: (List.replicate d "I-ASP" ++ List.replicate 0 "O"))) = none := by
      rw [findBoundary_rep_O]
      simp [findBoundary_B_run_end d]
    rw [extractSpansLoop_step_none tokens (a + b + c + d + 0 + 3) 0 _ _ h2]
    simp [extractSpansLoop]
  | succ e' =>
    have h2 : findBoundary (List.replicate (a + b + c + 2) "O" ++
        ("B-ASP" :: (List.replicate d "I-ASP" ++ List.replicate (e' + 1) "O"))) =
        some (d + (a + b + c + 2)) := by
      rw [List.replicate_succ "O" e', findBoundary_rep_O, findBoundary_B_run]
      rfl
    rw [extractSpansLoop_step_some tokens (a + b + c + d + (e' + 1) + 3) 0
      (d + (a + b + c + 2)) _ _ h2]
    have htags2 := take_prefix_shape (List.replicate (a + b + c + 2) "O")
      (List.replicate d "I-ASP") (List.replicate (e' + 1) "O") "B-ASP"
      (d + (a + b + c + 2) + 1) (by simp; omega)
    have hpols2 := take_prefix_shape (List.replicate (a + b + c + 2) SENTIMENT_PADDING)
      (List.replicate d (-SENTIMENT_PADDING)) (List.replicate (e' + 1) SENTIMENT_PADDING)
      (-SENTIMENT_PADDING) (d + (a + b + c + 2) + 1) (by simp; omega)
    rw [htags2.1, hpols2.1, List.drop_replicate, List.drop_replicate]
    have hrest2 : a + b + c + d + (e' + 1) + 3 - (d + (a + b + c + 2) + 1) = e' + 1 := by
      omega
    rw [hrest2]
    simp [extractSpansLoop]

end PyAbsa
